import Mathlib

/-!
Verification of the zbus repository core: the zvariant Basic wire type
registry (src/zvariant/src/basic.rs) and the zbus_derive dbus_proxy
interface compiler (src/zbus_derive/src/lib.rs), shallowly embedded in
Lean 4.
-/

/-! ## Wire type registry (src/zvariant/src/basic.rs)

Each `impl Basic for T` in basic.rs contributes a signature character, a
signature string, and a per-format alignment function.  The per-impl
constants below mirror the source impls one by one, keeping the source
delegations (i8 reuses i16, f32 reuses f64, NonZero kinds reuse their
base kind, char reuses the str signature via the blanket reference impl)
visible as definitional delegation. -/

/-- The two wire formats of zvariant::serialized::Format. -/
inductive Format
  | DBus
  | GVariant
deriving DecidableEq, Repr

/-- The kinds that implement Basic in basic.rs, plus the blanket
reference impl for any Basic kind. -/
inductive BasicKind
  | u8
  | nonZeroU8
  | i8
  | nonZeroI8
  | bool
  | i16
  | nonZeroI16
  | u16
  | nonZeroU16
  | i32
  | nonZeroI32
  | u32
  | nonZeroU32
  | i64
  | nonZeroI64
  | u64
  | nonZeroU64
  | f32
  | f64
  | str
  | string
  | char
  | ref (b : BasicKind)
deriving DecidableEq, Repr

def u8_SIGNATURE_CHAR : Char := 'y'

def u8_SIGNATURE_STR : String := "y"

def u8_alignment : Format → Nat
  | Format.DBus => 1
  | Format.GVariant => 1

def nonZeroU8_SIGNATURE_CHAR : Char := u8_SIGNATURE_CHAR

def nonZeroU8_SIGNATURE_STR : String := u8_SIGNATURE_STR

def nonZeroU8_alignment : Format → Nat
  | Format.DBus => 1
  | Format.GVariant => 1

def bool_SIGNATURE_CHAR : Char := 'b'

def bool_SIGNATURE_STR : String := "b"

def bool_alignment : Format → Nat
  | Format.DBus => 4
  | Format.GVariant => 4

def i16_SIGNATURE_CHAR : Char := 'n'

def i16_SIGNATURE_STR : String := "n"

def i16_alignment : Format → Nat
  | Format.DBus => 2
  | Format.GVariant => 2

-- No i8 type in D-Bus/GVariant: the source pretends it is i16.
def i8_SIGNATURE_CHAR : Char := i16_SIGNATURE_CHAR

def i8_SIGNATURE_STR : String := i16_SIGNATURE_STR

def i8_alignment : Format → Nat
  | Format.DBus => i16_alignment Format.DBus
  | Format.GVariant => i16_alignment Format.GVariant

def nonZeroI8_SIGNATURE_CHAR : Char := i8_SIGNATURE_CHAR

def nonZeroI8_SIGNATURE_STR : String := i8_SIGNATURE_STR

def nonZeroI8_alignment : Format → Nat
  | Format.DBus => i16_alignment Format.DBus
  | Format.GVariant => i16_alignment Format.GVariant

def nonZeroI16_SIGNATURE_CHAR : Char := i16_SIGNATURE_CHAR

def nonZeroI16_SIGNATURE_STR : String := i16_SIGNATURE_STR

def nonZeroI16_alignment : Format → Nat
  | Format.DBus => 2
  | Format.GVariant => 2

def u16_SIGNATURE_CHAR : Char := 'q'

def u16_SIGNATURE_STR : String := "q"

def u16_alignment : Format → Nat
  | Format.DBus => 2
  | Format.GVariant => 2

def nonZeroU16_SIGNATURE_CHAR : Char := u16_SIGNATURE_CHAR

def nonZeroU16_SIGNATURE_STR : String := u16_SIGNATURE_STR

def nonZeroU16_alignment : Format → Nat
  | Format.DBus => 2
  | Format.GVariant => 2

def i32_SIGNATURE_CHAR : Char := 'i'

def i32_SIGNATURE_STR : String := "i"

def i32_alignment : Format → Nat
  | Format.DBus => 4
  | Format.GVariant => 4

def nonZeroI32_SIGNATURE_CHAR : Char := i32_SIGNATURE_CHAR

def nonZeroI32_SIGNATURE_STR : String := i32_SIGNATURE_STR

def nonZeroI32_alignment : Format → Nat
  | Format.DBus => 4
  | Format.GVariant => 4

def u32_SIGNATURE_CHAR : Char := 'u'

def u32_SIGNATURE_STR : String := "u"

def u32_alignment : Format → Nat
  | Format.DBus => 4
  | Format.GVariant => 4

def nonZeroU32_SIGNATURE_CHAR : Char := u32_SIGNATURE_CHAR

def nonZeroU32_SIGNATURE_STR : String := u32_SIGNATURE_STR

def nonZeroU32_alignment : Format → Nat
  | Format.DBus => 4
  | Format.GVariant => 4

def i64_SIGNATURE_CHAR : Char := 'x'

def i64_SIGNATURE_STR : String := "x"

def i64_alignment : Format → Nat
  | Format.DBus => 8
  | Format.GVariant => 8

def nonZeroI64_SIGNATURE_CHAR : Char := i64_SIGNATURE_CHAR

def nonZeroI64_SIGNATURE_STR : String := i64_SIGNATURE_STR

def nonZeroI64_alignment : Format → Nat
  | Format.DBus => 8
  | Format.GVariant => 8

def u64_SIGNATURE_CHAR : Char := 't'

def u64_SIGNATURE_STR : String := "t"

def u64_alignment : Format → Nat
  | Format.DBus => 8
  | Format.GVariant => 8

def nonZeroU64_SIGNATURE_CHAR : Char := u64_SIGNATURE_CHAR

def nonZeroU64_SIGNATURE_STR : String := u64_SIGNATURE_STR

def nonZeroU64_alignment : Format → Nat
  | Format.DBus => 8
  | Format.GVariant => 8

def f64_SIGNATURE_CHAR : Char := 'd'

def f64_SIGNATURE_STR : String := "d"

def f64_alignment : Format → Nat
  | Format.DBus => 8
  | Format.GVariant => 8

-- No f32 type in D-Bus/GVariant: the source pretends it is f64.
def f32_SIGNATURE_CHAR : Char := f64_SIGNATURE_CHAR

def f32_SIGNATURE_STR : String := f64_SIGNATURE_STR

def f32_alignment : Format → Nat
  | Format.DBus => f64_alignment Format.DBus
  | Format.GVariant => f64_alignment Format.GVariant

def str_SIGNATURE_CHAR : Char := 's'

def str_SIGNATURE_STR : String := "s"

def str_alignment : Format → Nat
  | Format.DBus => 4
  | Format.GVariant => 1

def string_SIGNATURE_CHAR : Char := 's'

def string_SIGNATURE_STR : String := "s"

def string_alignment : Format → Nat
  | Format.DBus => 4
  | Format.GVariant => 1

-- char delegates its signature to the str signature, through the
-- blanket reference impl, which forwards the constants of str.
def char_SIGNATURE_CHAR : Char := str_SIGNATURE_CHAR

def char_SIGNATURE_STR : String := str_SIGNATURE_STR

def char_alignment : Format → Nat
  | Format.DBus => 4
  | Format.GVariant => 1

/-- SIGNATURE_CHAR of each Basic impl; the ref case is the blanket impl
for references, which forwards to the referent. -/
def SIGNATURE_CHAR : BasicKind → Char
  | BasicKind.u8 => u8_SIGNATURE_CHAR
  | BasicKind.nonZeroU8 => nonZeroU8_SIGNATURE_CHAR
  | BasicKind.i8 => i8_SIGNATURE_CHAR
  | BasicKind.nonZeroI8 => nonZeroI8_SIGNATURE_CHAR
  | BasicKind.bool => bool_SIGNATURE_CHAR
  | BasicKind.i16 => i16_SIGNATURE_CHAR
  | BasicKind.nonZeroI16 => nonZeroI16_SIGNATURE_CHAR
  | BasicKind.u16 => u16_SIGNATURE_CHAR
  | BasicKind.nonZeroU16 => nonZeroU16_SIGNATURE_CHAR
  | BasicKind.i32 => i32_SIGNATURE_CHAR
  | BasicKind.nonZeroI32 => nonZeroI32_SIGNATURE_CHAR
  | BasicKind.u32 => u32_SIGNATURE_CHAR
  | BasicKind.nonZeroU32 => nonZeroU32_SIGNATURE_CHAR
  | BasicKind.i64 => i64_SIGNATURE_CHAR
  | BasicKind.nonZeroI64 => nonZeroI64_SIGNATURE_CHAR
  | BasicKind.u64 => u64_SIGNATURE_CHAR
  | BasicKind.nonZeroU64 => nonZeroU64_SIGNATURE_CHAR
  | BasicKind.f32 => f32_SIGNATURE_CHAR
  | BasicKind.f64 => f64_SIGNATURE_CHAR
  | BasicKind.str => str_SIGNATURE_CHAR
  | BasicKind.string => string_SIGNATURE_CHAR
  | BasicKind.char => char_SIGNATURE_CHAR
  | BasicKind.ref b => SIGNATURE_CHAR b

/-- SIGNATURE_STR of each Basic impl. -/
def SIGNATURE_STR : BasicKind → String
  | BasicKind.u8 => u8_SIGNATURE_STR
  | BasicKind.nonZeroU8 => nonZeroU8_SIGNATURE_STR
  | BasicKind.i8 => i8_SIGNATURE_STR
  | BasicKind.nonZeroI8 => nonZeroI8_SIGNATURE_STR
  | BasicKind.bool => bool_SIGNATURE_STR
  | BasicKind.i16 => i16_SIGNATURE_STR
  | BasicKind.nonZeroI16 => nonZeroI16_SIGNATURE_STR
  | BasicKind.u16 => u16_SIGNATURE_STR
  | BasicKind.nonZeroU16 => nonZeroU16_SIGNATURE_STR
  | BasicKind.i32 => i32_SIGNATURE_STR
  | BasicKind.nonZeroI32 => nonZeroI32_SIGNATURE_STR
  | BasicKind.u32 => u32_SIGNATURE_STR
  | BasicKind.nonZeroU32 => nonZeroU32_SIGNATURE_STR
  | BasicKind.i64 => i64_SIGNATURE_STR
  | BasicKind.nonZeroI64 => nonZeroI64_SIGNATURE_STR
  | BasicKind.u64 => u64_SIGNATURE_STR
  | BasicKind.nonZeroU64 => nonZeroU64_SIGNATURE_STR
  | BasicKind.f32 => f32_SIGNATURE_STR
  | BasicKind.f64 => f64_SIGNATURE_STR
  | BasicKind.str => str_SIGNATURE_STR
  | BasicKind.string => string_SIGNATURE_STR
  | BasicKind.char => char_SIGNATURE_STR
  | BasicKind.ref b => SIGNATURE_STR b

/-- The alignment method of each Basic impl. -/
def alignment : BasicKind → Format → Nat
  | BasicKind.u8, f => u8_alignment f
  | BasicKind.nonZeroU8, f => nonZeroU8_alignment f
  | BasicKind.i8, f => i8_alignment f
  | BasicKind.nonZeroI8, f => nonZeroI8_alignment f
  | BasicKind.bool, f => bool_alignment f
  | BasicKind.i16, f => i16_alignment f
  | BasicKind.nonZeroI16, f => nonZeroI16_alignment f
  | BasicKind.u16, f => u16_alignment f
  | BasicKind.nonZeroU16, f => nonZeroU16_alignment f
  | BasicKind.i32, f => i32_alignment f
  | BasicKind.nonZeroI32, f => nonZeroI32_alignment f
  | BasicKind.u32, f => u32_alignment f
  | BasicKind.nonZeroU32, f => nonZeroU32_alignment f
  | BasicKind.i64, f => i64_alignment f
  | BasicKind.nonZeroI64, f => nonZeroI64_alignment f
  | BasicKind.u64, f => u64_alignment f
  | BasicKind.nonZeroU64, f => nonZeroU64_alignment f
  | BasicKind.f32, f => f32_alignment f
  | BasicKind.f64, f => f64_alignment f
  | BasicKind.str, f => str_alignment f
  | BasicKind.string, f => string_alignment f
  | BasicKind.char, f => char_alignment f
  | BasicKind.ref b, f => alignment b f

/-! ## Interface compiler (src/zbus_derive/src/lib.rs)

The dbus_proxy attribute macro is embedded as a function from the parsed
attribute arguments and the parsed trait item to either a compile error
(each panic in the source becomes an error value) or a description of
the generated proxy impl.  Generated members are modelled by the
ProxyMember type, whose constructors record exactly what the quoted
bodies in the source do; runMember below gives those bodies their
runtime semantics against a Transport. -/

/-- A syn literal, as far as the source inspects it: a string literal or
anything else. -/
inductive Lit
  | strLit (s : String)
  | otherLit
deriving DecidableEq, Repr

/-- A syn NestedMeta attribute argument, as far as the source inspects
it: a name=value pair or anything else. -/
inductive NestedMeta
  | nameValue (path : String) (lit : Lit)
  | otherMeta
deriving DecidableEq, Repr

/-- The three mutable option variables of dbus_proxy while the argument
loop runs. -/
structure Directives where
  iface_name : Option String
  default_path : Option String
  default_service : Option String
deriving DecidableEq, Repr

/-- One iteration of the argument loop of dbus_proxy; each panic arm of
the source becomes an error. -/
def parseArg (d : Directives) : NestedMeta → Except String Directives
  | NestedMeta.nameValue p l =>
    if p = "interface" then
      match l with
      | Lit.strLit s => Except.ok { d with iface_name := some s }
      | Lit.otherLit => Except.error "Invalid interface argument"
    else if p = "default_path" then
      match l with
      | Lit.strLit s => Except.ok { d with default_path := some s }
      | Lit.otherLit => Except.error "Invalid path argument"
    else if p = "default_service" then
      match l with
      | Lit.strLit s => Except.ok { d with default_service := some s }
      | Lit.otherLit => Except.error "Invalid service argument"
    else Except.error "Unsupported argument"
  | NestedMeta.otherMeta => Except.error "Unknown attribute"

/-- The whole argument loop of dbus_proxy. -/
def parseArgs : Directives → List NestedMeta → Except String Directives
  | d, [] => Except.ok d
  | d, a :: rest =>
    match parseArg d a with
    | Except.ok d2 => parseArgs d2 rest
    | Except.error e => Except.error e

/-- A syn pattern, as far as arg_ident inspects it: an identifier
pattern or anything else. -/
inductive Pat
  | identPat (s : String)
  | otherPat
deriving DecidableEq, Repr

/-- A syn FnArg: the receiver or a typed argument with a pattern. -/
inductive FnArg
  | receiver
  | typed (pat : Pat)
deriving DecidableEq, Repr

/-- arg_ident from the source: the identifier of a typed
identifier-pattern argument, none otherwise. -/
def arg_ident : FnArg → Option String
  | FnArg.typed (Pat.identPat s) => some s
  | FnArg.typed Pat.otherPat => none
  | FnArg.receiver => none

/-- A parsed method-level dbus_proxy attribute (the ItemAttribute type
lives in the utils module, absent from src/; its two variants are fixed
by their uses in lib.rs: a property flag and an explicit name). -/
inductive ItemAttr
  | property
  | name (s : String)
deriving DecidableEq, Repr

/-- The is_property test on a parsed method attribute. -/
def ItemAttr.is_property : ItemAttr → Bool
  | ItemAttr.property => true
  | ItemAttr.name _ => false

/-- A syn TraitItemMethod, as far as the source inspects it: its
identifier, its ordered inputs, its parsed dbus_proxy attributes and its
doc lines. -/
structure TraitItemMethod where
  ident : String
  inputs : List FnArg
  attrs : List ItemAttr
  doc : List String
deriving DecidableEq, Repr

/-- A syn TraitItem: a method or any other trait item (skipped by the
source loop). -/
inductive TraitItem
  | method (m : TraitItemMethod)
  | otherItem
deriving DecidableEq, Repr

/-- A syn ItemTrait, as far as the source inspects it. -/
structure ItemTrait where
  ident : String
  doc : List String
  items : List TraitItem
deriving DecidableEq, Repr

/-- Modelled from the spec: pascal_case lives in the utils module of the
zbus_derive crate, which is absent from src/.  Spec rule 5(b): the
method name is converted to capitalized, separator-free word-joined form
(split on word-separator characters, capitalize each segment,
concatenate); the word separator of the snake_case method names is the
underscore.  The accumulator flag records whether the next character
starts a segment. -/
def capitalizeWords : Bool → List Char → List Char
  | _, [] => []
  | atStart, c :: cs =>
    if c = '_' then capitalizeWords true cs
    else (if atStart then c.toUpper else c) :: capitalizeWords false cs

/-- Modelled from the spec: see capitalizeWords. -/
def pascal_case (s : String) : String :=
  String.mk (capitalizeWords true s.data)

/-- The starts_with test of the source, by character-list prefix. -/
def startsWithStr (s pre : String) : Bool :=
  List.isPrefixOf pre.data s.data

/-- findExplicitName: the find_map over the parsed method attributes
looking for an explicit name. -/
def findExplicitName (attrs : List ItemAttr) : Option String :=
  attrs.findSome? fun a =>
    match a with
    | ItemAttr.name n => some n
    | ItemAttr.property => none

/-- Wire-name resolution for one method: the explicit name if present,
else pascal_case of the method name, with the set_ prefix stripped first
for a property with inputs; the assert in the source becomes an error.
The unwrap_or_else closure only runs when no explicit name was found, so
the assert is unreachable when an explicit name is given. -/
def resolveWireName (method_name : String) (attrs : List ItemAttr)
    (is_property has_inputs : Bool) : Except String String :=
  match findExplicitName attrs with
  | some n => Except.ok n
  | none =>
    if is_property && has_inputs then
      if startsWithStr method_name "set_" then
        Except.ok (pascal_case (method_name.drop 4))
      else
        Except.error "assertion failed: method_name starts_with set_"
    else
      Except.ok (pascal_case method_name)

/-- A generated proxy member, recording what the quoted body in the
source does: a remote call forwarding the listed argument identifiers as
one tuple, a property set forwarding one identifier, a property get, or
the synthesized introspection member. -/
inductive ProxyMember
  | methodCall (wireName : String) (args : List String) (doc : List String)
  | propertySet (wireName : String) (value : String) (doc : List String)
  | propertyGet (wireName : String) (doc : List String)
  | introspectMember
deriving DecidableEq, Repr

/-- gen_proxy_method_call: the body calls self.0.call with the wire name
and the tuple of all inputs that have an argument identifier (the
receiver has none), then returns the reply. -/
def gen_proxy_method_call (method_name : String) (m : TraitItemMethod) : ProxyMember :=
  ProxyMember.methodCall method_name (m.inputs.filterMap arg_ident) m.doc

/-- gen_proxy_property: with more than one input the body calls
self.0.try_set with the identifier of the last input (the two unwraps of
the source become errors), else self.0.try_get. -/
def gen_proxy_property (property_name : String) (m : TraitItemMethod) : Except String ProxyMember :=
  if m.inputs.length > 1 then
    match m.inputs.getLast? with
    | none => Except.error "called unwrap on a None value"
    | some a =>
      match arg_ident a with
      | none => Except.error "called unwrap on a None value"
      | some v => Except.ok (ProxyMember.propertySet property_name v m.doc)
  else
    Except.ok (ProxyMember.propertyGet property_name m.doc)

/-- The per-method body of the item loop of dbus_proxy: classify by the
property flag and generate the member. -/
def compileMethod (m : TraitItemMethod) : Except String ProxyMember :=
  match resolveWireName m.ident m.attrs (m.attrs.any ItemAttr.is_property)
      (decide (m.inputs.length > 1)) with
  | Except.error e => Except.error e
  | Except.ok name =>
    if m.attrs.any ItemAttr.is_property then gen_proxy_property name m
    else Except.ok (gen_proxy_method_call name m)

/-- The item loop of dbus_proxy: methods are compiled in order,
non-method items are skipped. -/
def compileItems : List TraitItem → Except String (List ProxyMember)
  | [] => Except.ok []
  | TraitItem.method m :: rest =>
    match compileMethod m with
    | Except.error e => Except.error e
    | Except.ok mem =>
      match compileItems rest with
      | Except.error e => Except.error e
      | Except.ok mems => Except.ok (mem :: mems)
  | TraitItem.otherItem :: rest => compileItems rest

/-- The has_introspect_method flag: set when some declared method is
named introspect. -/
def hasIntrospectMethod (items : List TraitItem) : Bool :=
  items.any fun i =>
    match i with
    | TraitItem.method m => m.ident == "introspect"
    | TraitItem.otherItem => false

/-- The generated proxy impl: its type name, the resolved interface
name, default path and default service baked into the constructors, and
its generated members in order. -/
structure ProxyOutput where
  proxyName : String
  name : String
  default_path : String
  default_service : String
  members : List ProxyMember
deriving DecidableEq, Repr

/-- The dbus_proxy attribute macro: parse the arguments, resolve the
default names, compile every method, and append the synthesized
introspection member when no declared method is named introspect. -/
def dbus_proxy (attr : List NestedMeta) (input : ItemTrait) : Except String ProxyOutput :=
  match parseArgs ⟨none, none, none⟩ attr with
  | Except.error e => Except.error e
  | Except.ok dirs =>
    let ident := input.ident
    let name := dirs.iface_name.getD ("org.freedesktop." ++ ident)
    let default_path := dirs.default_path.getD ("/org/freedesktop/" ++ ident)
    let default_service := dirs.default_service.getD name
    match compileItems input.items with
    | Except.error e => Except.error e
    | Except.ok mems =>
      let members :=
        if hasIntrospectMethod input.items then mems
        else mems ++ [ProxyMember.introspectMember]
      Except.ok
        { proxyName := ident ++ "Proxy"
          name := name
          default_path := default_path
          default_service := default_service
          members := members }

/-! ## Runtime semantics of generated members -/

/-- The Transport abstraction behind self.0: the zbus Proxy operations
the generated bodies invoke, over an abstract value type V and an
abstract transport error type E. -/
structure Transport (V E : Type) where
  call : String → List V → Except E V
  try_get : String → Except E V
  try_set : String → V → Except E V
  run_introspect : Except E V

/-- One observable transport operation, for the call trace of a
generated body. -/
inductive TransportCall (V : Type)
  | invoke (name : String) (args : List V)
  | getProp (name : String)
  | setProp (name : String) (v : V)
  | introspectCall
deriving DecidableEq, Repr

/-- The runtime semantics of a generated member body, given a transport
and the values bound to the argument identifiers: the list of transport
operations the body performs and its returned result.  The methodCall
case is the quoted body of gen_proxy_method_call: the ? operator
re-raises the error, otherwise the reply is returned wrapped in Ok. -/
def runMember {V E : Type} (tr : Transport V E) (env : String → V) :
    ProxyMember → List (TransportCall V) × Except E V
  | ProxyMember.methodCall n args _ =>
    ([TransportCall.invoke n (args.map env)],
      match tr.call n (args.map env) with
      | Except.error e => Except.error e
      | Except.ok reply => Except.ok reply)
  | ProxyMember.propertySet n v _ =>
    ([TransportCall.setProp n (env v)], tr.try_set n (env v))
  | ProxyMember.propertyGet n _ =>
    ([TransportCall.getProp n], tr.try_get n)
  | ProxyMember.introspectMember =>
    ([TransportCall.introspectCall], tr.run_introspect)

/-! ## Concrete declarations used to instantiate the theorems -/

/-- The attribute argument list carrying the given optional directive
overrides, in the surface order interface, default_path,
default_service. -/
def mkDirectiveAttrs (i p s : Option String) : List NestedMeta :=
  (match i with
   | some v => [NestedMeta.nameValue "interface" (Lit.strLit v)]
   | none => []) ++
  (match p with
   | some v => [NestedMeta.nameValue "default_path" (Lit.strLit v)]
   | none => []) ++
  (match s with
   | some v => [NestedMeta.nameValue "default_service" (Lit.strLit v)]
   | none => [])

/-- The do_this method of the doc example: a plain remote call with two
named arguments beyond the receiver. -/
def exMethodDoThis : TraitItemMethod :=
  ⟨"do_this", [FnArg.receiver, FnArg.typed (Pat.identPat "w"), FnArg.typed (Pat.identPat "v")],
    [], []⟩

/-- The a_property getter of the doc example. -/
def exMethodGetter : TraitItemMethod :=
  ⟨"a_property", [FnArg.receiver], [ItemAttr.property], []⟩

/-- The set_a_property setter of the doc example. -/
def exMethodSetter : TraitItemMethod :=
  ⟨"set_a_property", [FnArg.receiver, FnArg.typed (Pat.identPat "a_property")],
    [ItemAttr.property], []⟩

/-- A declaration holding the three doc-example methods and no method
named introspect. -/
def exTraitSomeIface : ItemTrait :=
  ⟨"SomeIface", [],
    [TraitItem.method exMethodDoThis, TraitItem.method exMethodGetter,
      TraitItem.method exMethodSetter]⟩

/-- The compiled output of exTraitSomeIface with no directives. -/
def exOutputSomeIface : ProxyOutput :=
  ⟨"SomeIfaceProxy", "org.freedesktop.SomeIface", "/org/freedesktop/SomeIface",
    "org.freedesktop.SomeIface",
    [ProxyMember.methodCall "DoThis" ["w", "v"] [],
      ProxyMember.propertyGet "AProperty" [],
      ProxyMember.propertySet "AProperty" "a_property" [],
      ProxyMember.introspectMember]⟩

/-- A setter-shaped property method named blah, without the set_ prefix
but carrying an explicit wire-name override. -/
def namedSetterMethod : TraitItemMethod :=
  ⟨"blah", [FnArg.receiver, FnArg.typed (Pat.identPat "v")],
    [ItemAttr.property, ItemAttr.name "Blah"], []⟩

/-- A declaration holding only namedSetterMethod. -/
def namedSetterTrait : ItemTrait :=
  ⟨"Foo", [], [TraitItem.method namedSetterMethod]⟩

/-- The compiled output of namedSetterTrait with no directives. -/
def namedSetterOutput : ProxyOutput :=
  ⟨"FooProxy", "org.freedesktop.Foo", "/org/freedesktop/Foo", "org.freedesktop.Foo",
    [ProxyMember.propertySet "Blah" "v" [], ProxyMember.introspectMember]⟩

/-- A property setter with two parameters beyond the receiver. -/
def exMethodTwoParamSetter : TraitItemMethod :=
  ⟨"set_thing", [FnArg.receiver, FnArg.typed (Pat.identPat "first"), FnArg.typed (Pat.identPat "second")],
    [ItemAttr.property], []⟩

/-- A declaration containing a method named introspect. -/
def exTraitWithIntrospect : ItemTrait :=
  ⟨"Bar", [], [TraitItem.method ⟨"introspect", [FnArg.receiver], [], []⟩]⟩

/-! ## Theorems: wire type registry -/

/-- C6: the 8-bit signed kind reports a signature character, signature
string, and alignment identical to those of the 16-bit signed kind, in
both wire formats. -/
theorem i8_signature_alignment_eq_i16 :
    SIGNATURE_CHAR BasicKind.i8 = SIGNATURE_CHAR BasicKind.i16 ∧
    SIGNATURE_STR BasicKind.i8 = SIGNATURE_STR BasicKind.i16 ∧
    ∀ f : Format, alignment BasicKind.i8 f = alignment BasicKind.i16 f := by
  refine ⟨rfl, rfl, fun f => ?_⟩
  cases f <;> rfl

/-- C7: every non-zero integer kind reports a signature character,
signature string, and alignment in both formats equal to those of its
base integer kind of the same width and signedness. -/
theorem nonzero_signature_alignment_eq_base :
    (SIGNATURE_CHAR BasicKind.nonZeroU8 = SIGNATURE_CHAR BasicKind.u8 ∧
     SIGNATURE_STR BasicKind.nonZeroU8 = SIGNATURE_STR BasicKind.u8 ∧
     ∀ f : Format, alignment BasicKind.nonZeroU8 f = alignment BasicKind.u8 f) ∧
    (SIGNATURE_CHAR BasicKind.nonZeroI8 = SIGNATURE_CHAR BasicKind.i8 ∧
     SIGNATURE_STR BasicKind.nonZeroI8 = SIGNATURE_STR BasicKind.i8 ∧
     ∀ f : Format, alignment BasicKind.nonZeroI8 f = alignment BasicKind.i8 f) ∧
    (SIGNATURE_CHAR BasicKind.nonZeroU16 = SIGNATURE_CHAR BasicKind.u16 ∧
     SIGNATURE_STR BasicKind.nonZeroU16 = SIGNATURE_STR BasicKind.u16 ∧
     ∀ f : Format, alignment BasicKind.nonZeroU16 f = alignment BasicKind.u16 f) ∧
    (SIGNATURE_CHAR BasicKind.nonZeroI16 = SIGNATURE_CHAR BasicKind.i16 ∧
     SIGNATURE_STR BasicKind.nonZeroI16 = SIGNATURE_STR BasicKind.i16 ∧
     ∀ f : Format, alignment BasicKind.nonZeroI16 f = alignment BasicKind.i16 f) ∧
    (SIGNATURE_CHAR BasicKind.nonZeroU32 = SIGNATURE_CHAR BasicKind.u32 ∧
     SIGNATURE_STR BasicKind.nonZeroU32 = SIGNATURE_STR BasicKind.u32 ∧
     ∀ f : Format, alignment BasicKind.nonZeroU32 f = alignment BasicKind.u32 f) ∧
    (SIGNATURE_CHAR BasicKind.nonZeroI32 = SIGNATURE_CHAR BasicKind.i32 ∧
     SIGNATURE_STR BasicKind.nonZeroI32 = SIGNATURE_STR BasicKind.i32 ∧
     ∀ f : Format, alignment BasicKind.nonZeroI32 f = alignment BasicKind.i32 f) ∧
    (SIGNATURE_CHAR BasicKind.nonZeroU64 = SIGNATURE_CHAR BasicKind.u64 ∧
     SIGNATURE_STR BasicKind.nonZeroU64 = SIGNATURE_STR BasicKind.u64 ∧
     ∀ f : Format, alignment BasicKind.nonZeroU64 f = alignment BasicKind.u64 f) ∧
    (SIGNATURE_CHAR BasicKind.nonZeroI64 = SIGNATURE_CHAR BasicKind.i64 ∧
     SIGNATURE_STR BasicKind.nonZeroI64 = SIGNATURE_STR BasicKind.i64 ∧
     ∀ f : Format, alignment BasicKind.nonZeroI64 f = alignment BasicKind.i64 f) := by
  refine ⟨⟨rfl, rfl, fun f => ?_⟩, ⟨rfl, rfl, fun f => ?_⟩, ⟨rfl, rfl, fun f => ?_⟩,
    ⟨rfl, rfl, fun f => ?_⟩, ⟨rfl, rfl, fun f => ?_⟩, ⟨rfl, rfl, fun f => ?_⟩,
    ⟨rfl, rfl, fun f => ?_⟩, ⟨rfl, rfl, fun f => ?_⟩⟩ <;> cases f <;> rfl

/-- C8: for every kind implementing the registry, the signature string
has length exactly 1 and its single character equals the signature
character. -/
theorem signature_str_length_one_front_eq_char (k : BasicKind) :
    (SIGNATURE_STR k).length = 1 ∧ (SIGNATURE_STR k).front = SIGNATURE_CHAR k := by
  induction k with
  | ref b ih => exact ih
  | u8 => exact ⟨rfl, rfl⟩
  | nonZeroU8 => exact ⟨rfl, rfl⟩
  | i8 => exact ⟨rfl, rfl⟩
  | nonZeroI8 => exact ⟨rfl, rfl⟩
  | bool => exact ⟨rfl, rfl⟩
  | i16 => exact ⟨rfl, rfl⟩
  | nonZeroI16 => exact ⟨rfl, rfl⟩
  | u16 => exact ⟨rfl, rfl⟩
  | nonZeroU16 => exact ⟨rfl, rfl⟩
  | i32 => exact ⟨rfl, rfl⟩
  | nonZeroI32 => exact ⟨rfl, rfl⟩
  | u32 => exact ⟨rfl, rfl⟩
  | nonZeroU32 => exact ⟨rfl, rfl⟩
  | i64 => exact ⟨rfl, rfl⟩
  | nonZeroI64 => exact ⟨rfl, rfl⟩
  | u64 => exact ⟨rfl, rfl⟩
  | nonZeroU64 => exact ⟨rfl, rfl⟩
  | f32 => exact ⟨rfl, rfl⟩
  | f64 => exact ⟨rfl, rfl⟩
  | str => exact ⟨rfl, rfl⟩
  | string => exact ⟨rfl, rfl⟩
  | char => exact ⟨rfl, rfl⟩

/-! ## Theorems: interface compiler -/

/-- Helper: the argument loop on a directive list built from optional
overrides yields exactly those overrides. -/
theorem parseArgs_mkDirectiveAttrs (i p s : Option String) :
    parseArgs ⟨none, none, none⟩ (mkDirectiveAttrs i p s) = Except.ok ⟨i, p, s⟩ := by
  cases i <;> cases p <;> cases s <;> rfl

/-- Helper: a compiled method member lands in the member list produced
by the item loop. -/
theorem compileItems_mem {items : List TraitItem} {mems : List ProxyMember}
    (hc : compileItems items = Except.ok mems) {m : TraitItemMethod}
    (hm : TraitItem.method m ∈ items) {mem : ProxyMember}
    (hcm : compileMethod m = Except.ok mem) : mem ∈ mems := by
  induction items generalizing mems with
  | nil => cases hm
  | cons i rest ih =>
    cases i with
    | otherItem =>
      rcases List.mem_cons.mp hm with heq | hmem
      · cases heq
      · exact ih hc hmem
    | method m2 =>
      unfold compileItems at hc
      cases h1 : compileMethod m2 with
      | error e => rw [h1] at hc; cases hc
      | ok mem2 =>
        rw [h1] at hc
        cases h2 : compileItems rest with
        | error e => rw [h2] at hc; cases hc
        | ok mems2 =>
          rw [h2] at hc
          cases hc
          rcases List.mem_cons.mp hm with heq | hmem
          · injection heq with h3
            subst h3
            rw [hcm] at h1
            injection h1 with h4
            subst h4
            exact List.mem_cons_self _ _
          · exact List.mem_cons_of_mem _ (ih h2 hmem)

/-- Helper: the per-method generator never produces the synthesized
introspection member. -/
theorem compileMethod_ne_introspect {m : TraitItemMethod} {mem : ProxyMember}
    (h : compileMethod m = Except.ok mem) : mem ≠ ProxyMember.introspectMember := by
  unfold compileMethod at h
  cases hr : resolveWireName m.ident m.attrs (m.attrs.any ItemAttr.is_property)
      (decide (m.inputs.length > 1)) with
  | error e => rw [hr] at h; cases h
  | ok name =>
    simp only [hr] at h
    by_cases hp : m.attrs.any ItemAttr.is_property
    · rw [if_pos hp] at h
      unfold gen_proxy_property at h
      by_cases hl : m.inputs.length > 1
      · rw [if_pos hl] at h
        cases hlast : m.inputs.getLast? with
        | none =>
          simp only [hlast] at h
          exact Except.noConfusion h
        | some a =>
          simp only [hlast] at h
          cases ha : arg_ident a with
          | none =>
            simp only [ha] at h
            exact Except.noConfusion h
          | some v =>
            simp only [ha] at h
            injection h with h4
            subst h4
            simp
      · rw [if_neg hl] at h
        injection h with h4
        subst h4
        simp
    · rw [if_neg hp] at h
      injection h with h4
      subst h4
      simp [gen_proxy_method_call]

/-- Helper: the item loop never produces the synthesized introspection
member. -/
theorem compileItems_not_introspect {items : List TraitItem} {mems : List ProxyMember}
    (hc : compileItems items = Except.ok mems) :
    ProxyMember.introspectMember ∉ mems := by
  induction items generalizing mems with
  | nil => cases hc; simp
  | cons i rest ih =>
    cases i with
    | otherItem => exact ih hc
    | method m2 =>
      unfold compileItems at hc
      cases h1 : compileMethod m2 with
      | error e => rw [h1] at hc; cases hc
      | ok mem2 =>
        rw [h1] at hc
        cases h2 : compileItems rest with
        | error e => rw [h2] at hc; cases hc
        | ok mems2 =>
          rw [h2] at hc
          cases hc
          intro hmem
          rcases List.mem_cons.mp hmem with heq | hmem2
          · exact compileMethod_ne_introspect h1 heq.symm
          · exact ih h2 hmem2

/-- Helper: inversion of a successful dbus_proxy run, exposing the
resolved names and the member list. -/
theorem dbus_proxy_ok_inv {attr : List NestedMeta} {input : ItemTrait} {o : ProxyOutput}
    (h : dbus_proxy attr input = Except.ok o) :
    ∃ dirs mems,
      parseArgs ⟨none, none, none⟩ attr = Except.ok dirs ∧
      compileItems input.items = Except.ok mems ∧
      o.proxyName = input.ident ++ "Proxy" ∧
      o.name = dirs.iface_name.getD ("org.freedesktop." ++ input.ident) ∧
      o.default_path = dirs.default_path.getD ("/org/freedesktop/" ++ input.ident) ∧
      o.default_service = dirs.default_service.getD
        (dirs.iface_name.getD ("org.freedesktop." ++ input.ident)) ∧
      o.members =
        (if hasIntrospectMethod input.items then mems
         else mems ++ [ProxyMember.introspectMember]) := by
  cases hp : parseArgs ⟨none, none, none⟩ attr with
  | error e =>
    simp only [dbus_proxy, hp] at h
    exact Except.noConfusion h
  | ok dirs =>
    cases hc : compileItems input.items with
    | error e =>
      simp only [dbus_proxy, hp, hc] at h
      exact Except.noConfusion h
    | ok mems =>
      simp only [dbus_proxy, hp, hc] at h
      cases h
      exact ⟨dirs, mems, rfl, rfl, rfl, rfl, rfl, rfl, rfl⟩

/-- C3: for every compiled declaration with local name N, the resolved
interface name is the interface override if present, else
org.freedesktop.N; the resolved default path is the default_path
override if present, else /org/freedesktop/N; and the resolved default
service is the default_service override if present, else the resolved
interface name (so with an interface override and no service override,
the default service equals that override). -/
theorem resolved_default_names (i p s : Option String) (input : ItemTrait) (o : ProxyOutput)
    (hok : dbus_proxy (mkDirectiveAttrs i p s) input = Except.ok o) :
    o.name = i.getD ("org.freedesktop." ++ input.ident) ∧
    o.default_path = p.getD ("/org/freedesktop/" ++ input.ident) ∧
    o.default_service = s.getD (i.getD ("org.freedesktop." ++ input.ident)) := by
  obtain ⟨dirs, mems, hdirs, hmems, hpn, hn, hdp, hds, hmem⟩ := dbus_proxy_ok_inv hok
  rw [parseArgs_mkDirectiveAttrs] at hdirs
  injection hdirs with h1
  subst h1
  exact ⟨hn, hdp, hds⟩

/-- C3 witness: an interface override with no service override makes the
default service equal the override, while the path default still uses
the local name. -/
theorem resolved_default_names_witness :
    (⟨"FooProxy", "org.test.I", "/org/freedesktop/Foo", "org.test.I",
        [ProxyMember.propertySet "Blah" "v" [], ProxyMember.introspectMember]⟩ : ProxyOutput).name =
      (some "org.test.I").getD ("org.freedesktop." ++ namedSetterTrait.ident) ∧
    (⟨"FooProxy", "org.test.I", "/org/freedesktop/Foo", "org.test.I",
        [ProxyMember.propertySet "Blah" "v" [], ProxyMember.introspectMember]⟩ : ProxyOutput).default_path =
      (none : Option String).getD ("/org/freedesktop/" ++ namedSetterTrait.ident) ∧
    (⟨"FooProxy", "org.test.I", "/org/freedesktop/Foo", "org.test.I",
        [ProxyMember.propertySet "Blah" "v" [], ProxyMember.introspectMember]⟩ : ProxyOutput).default_service =
      (none : Option String).getD ((some "org.test.I").getD ("org.freedesktop." ++ namedSetterTrait.ident)) :=
  resolved_default_names (some "org.test.I") none none namedSetterTrait _ (by rfl)

/-- C1: for every declared method not marked property, the generated
member is a remote call that lands in the proxy member list, addressed
with the resolved wire name, and running it issues exactly one invoke
on the transport, forwarding all declared parameters beyond the
receiver in declaration order as one composite payload, returning the
transport result unmodified with a transport error passed through
unchanged. -/
theorem method_call_forwards_args {V E : Type} (attr : List NestedMeta) (input : ItemTrait)
    (o : ProxyOutput) (m : TraitItemMethod) (params : List String) (n : String)
    (hok : dbus_proxy attr input = Except.ok o)
    (hm : TraitItem.method m ∈ input.items)
    (hprop : m.attrs.any ItemAttr.is_property = false)
    (hname : resolveWireName m.ident m.attrs false (decide (m.inputs.length > 1)) = Except.ok n)
    (hargs : m.inputs = FnArg.receiver :: params.map (fun x => FnArg.typed (Pat.identPat x))) :
    ProxyMember.methodCall n params m.doc ∈ o.members ∧
    ∀ (tr : Transport V E) (env : String → V),
      runMember tr env (ProxyMember.methodCall n params m.doc) =
        ([TransportCall.invoke n (params.map env)], tr.call n (params.map env)) := by
  obtain ⟨dirs, mems, hdirs, hmems, hpn, hn, hdp, hds, hmem⟩ := dbus_proxy_ok_inv hok
  have hfm : m.inputs.filterMap arg_ident = params := by
    rw [hargs]
    have hcomp : (arg_ident ∘ fun x => FnArg.typed (Pat.identPat x)) = some :=
      funext fun x => rfl
    simp only [List.filterMap_cons, arg_ident, List.filterMap_map, hcomp, List.filterMap_some]
  have hcm : compileMethod m = Except.ok (ProxyMember.methodCall n params m.doc) := by
    unfold compileMethod
    simp only [hprop, hname, Bool.false_eq_true, if_false, gen_proxy_method_call, hfm]
  constructor
  · rw [hmem]
    by_cases hi : hasIntrospectMethod input.items
    · rw [if_pos hi]
      exact compileItems_mem hmems hm hcm
    · rw [if_neg hi]
      exact List.mem_append_left _ (compileItems_mem hmems hm hcm)
  · intro tr env
    simp only [runMember]
    cases tr.call n (params.map env) <;> rfl

/-- C1 witness: the do_this example method compiles to a remote call
member addressed DoThis, forwarding both declared arguments. -/
theorem method_call_forwards_args_witness :
    ProxyMember.methodCall "DoThis" ["w", "v"] exMethodDoThis.doc ∈ exOutputSomeIface.members ∧
    ∀ (tr : Transport Nat String) (env : String → Nat),
      runMember tr env (ProxyMember.methodCall "DoThis" ["w", "v"] exMethodDoThis.doc) =
        ([TransportCall.invoke "DoThis" (["w", "v"].map env)],
          tr.call "DoThis" (["w", "v"].map env)) :=
  method_call_forwards_args [] exTraitSomeIface exOutputSomeIface exMethodDoThis ["w", "v"]
    "DoThis" (by rfl) (by decide) (by rfl) (by rfl) (by rfl)

/-- C2: for every declared method marked property, classification by the
parameter count beyond the receiver: with exactly one parameter the
generated member forwards that one argument to the transport set
operation under the resolved name; with zero parameters it forwards to
the transport get operation and returns the decoded value. -/
theorem property_classification {V E : Type} (m : TraitItemMethod) (n : String) (ps : List FnArg)
    (hin : m.inputs = FnArg.receiver :: ps)
    (hprop : m.attrs.any ItemAttr.is_property = true)
    (hname : resolveWireName m.ident m.attrs true (decide (m.inputs.length > 1)) = Except.ok n) :
    (∀ v : String, ps = [FnArg.typed (Pat.identPat v)] →
      compileMethod m = Except.ok (ProxyMember.propertySet n v m.doc) ∧
      ∀ (tr : Transport V E) (env : String → V),
        runMember tr env (ProxyMember.propertySet n v m.doc) =
          ([TransportCall.setProp n (env v)], tr.try_set n (env v))) ∧
    (ps = [] →
      compileMethod m = Except.ok (ProxyMember.propertyGet n m.doc) ∧
      ∀ (tr : Transport V E) (env : String → V),
        runMember tr env (ProxyMember.propertyGet n m.doc) =
          ([TransportCall.getProp n], tr.try_get n)) := by
  constructor
  · intro v hps
    subst hps
    have h2 : m.inputs.length > 1 := by rw [hin]; simp
    refine ⟨?_, fun tr env => rfl⟩
    unfold compileMethod
    simp only [hprop, hname]
    unfold gen_proxy_property
    rw [if_pos h2, hin]
    simp [arg_ident]
  · intro hps
    subst hps
    have h2 : ¬m.inputs.length > 1 := by rw [hin]; simp
    refine ⟨?_, fun tr env => rfl⟩
    unfold compileMethod
    simp only [hprop, hname]
    unfold gen_proxy_property
    rw [if_neg h2]
    simp

/-- C2 witness: the a_property getter example compiles to a get member
addressed AProperty, and the setter-shaped variant to a set member. -/
theorem property_classification_witness :
    (∀ v : String, ([] : List FnArg) = [FnArg.typed (Pat.identPat v)] →
      compileMethod exMethodGetter = Except.ok (ProxyMember.propertySet "AProperty" v exMethodGetter.doc) ∧
      ∀ (tr : Transport Nat String) (env : String → Nat),
        runMember tr env (ProxyMember.propertySet "AProperty" v exMethodGetter.doc) =
          ([TransportCall.setProp "AProperty" (env v)], tr.try_set "AProperty" (env v))) ∧
    (([] : List FnArg) = [] →
      compileMethod exMethodGetter = Except.ok (ProxyMember.propertyGet "AProperty" exMethodGetter.doc) ∧
      ∀ (tr : Transport Nat String) (env : String → Nat),
        runMember tr env (ProxyMember.propertyGet "AProperty" exMethodGetter.doc) =
          ([TransportCall.getProp "AProperty"], tr.try_get "AProperty")) :=
  property_classification exMethodGetter "AProperty" [] (by rfl) (by rfl) (by rfl)

/-- C4 counterexample: a setter-shaped property method named blah, whose
name lacks the set_ prefix but which carries an explicit wire-name
override, compiles successfully, so the claim that every setter-shaped
property method without the prefix fails to compile is false. -/
theorem setter_prefix_counterexample :
    startsWithStr namedSetterMethod.ident "set_" = false ∧
    namedSetterMethod.attrs.any ItemAttr.is_property = true ∧
    namedSetterMethod.inputs.length > 1 ∧
    dbus_proxy [] namedSetterTrait = Except.ok namedSetterOutput :=
  ⟨rfl, rfl, by decide, by rfl⟩

/-- C4 amended: for every setter-shaped property method (marked property
with at least one parameter beyond the receiver) carrying no explicit
wire-name override, compilation fails fatally when the method name does
not begin with the set_ prefix; when the prefix is present it is
stripped from the method name before the capitalized word-joined
wire-name conversion. -/
theorem setter_prefix_required_without_override (m : TraitItemMethod)
    (hprop : m.attrs.any ItemAttr.is_property = true)
    (hinputs : m.inputs.length > 1)
    (hnoname : findExplicitName m.attrs = none) :
    (startsWithStr m.ident "set_" = false →
      compileMethod m = Except.error "assertion failed: method_name starts_with set_") ∧
    (startsWithStr m.ident "set_" = true →
      resolveWireName m.ident m.attrs true true =
        Except.ok (pascal_case (m.ident.drop 4))) := by
  have hd : decide (m.inputs.length > 1) = true := by simpa using hinputs
  constructor
  · intro hpre
    have hres : resolveWireName m.ident m.attrs true true =
        Except.error "assertion failed: method_name starts_with set_" := by
      unfold resolveWireName
      rw [hnoname]
      simp [hpre]
    unfold compileMethod
    rw [hprop, hd, hres]
  · intro hpre
    unfold resolveWireName
    rw [hnoname]
    simp [hpre]

/-- C4 amended witness: the set_a_property example setter resolves its
wire name by stripping the prefix and converting the rest. -/
theorem setter_prefix_required_without_override_witness :
    (startsWithStr exMethodSetter.ident "set_" = false →
      compileMethod exMethodSetter =
        Except.error "assertion failed: method_name starts_with set_") ∧
    (startsWithStr exMethodSetter.ident "set_" = true →
      resolveWireName exMethodSetter.ident exMethodSetter.attrs true true =
        Except.ok (pascal_case (exMethodSetter.ident.drop 4))) :=
  setter_prefix_required_without_override exMethodSetter (by rfl) (by decide) (by rfl)

/-- C9: a setter-shaped property method carrying an explicit wire-name
override compiles even when its name does not begin with the set_
prefix: the prefix requirement and stripping only apply when no explicit
name is given, and the explicit name is used verbatim as the property
name. -/
theorem explicit_name_bypasses_setter_check (m : TraitItemMethod) (n v : String)
    (ps : List FnArg)
    (hprop : m.attrs.any ItemAttr.is_property = true)
    (hname : findExplicitName m.attrs = some n)
    (hin : m.inputs = FnArg.receiver :: ps)
    (hlast : ps.getLast? = some (FnArg.typed (Pat.identPat v))) :
    compileMethod m = Except.ok (ProxyMember.propertySet n v m.doc) := by
  have hps : ps ≠ [] := by
    intro h
    rw [h] at hlast
    cases hlast
  have h2 : m.inputs.length > 1 := by
    rw [hin]
    cases ps with
    | nil => exact absurd rfl hps
    | cons a l => simp
  have hres : resolveWireName m.ident m.attrs true (decide (m.inputs.length > 1)) =
      Except.ok n := by
    unfold resolveWireName
    rw [hname]
  have hlast2 : m.inputs.getLast? = some (FnArg.typed (Pat.identPat v)) := by
    rw [hin]
    cases ps with
    | nil => exact absurd rfl hps
    | cons a l => rw [List.getLast?_cons_cons]; exact hlast
  unfold compileMethod
  simp only [hprop, hres]
  unfold gen_proxy_property
  rw [if_pos h2, hlast2]
  simp [arg_ident]

/-- C9 witness: the blah example setter with an explicit Blah override
compiles to a set member addressed Blah. -/
theorem explicit_name_bypasses_setter_check_witness :
    compileMethod namedSetterMethod =
      Except.ok (ProxyMember.propertySet "Blah" "v" namedSetterMethod.doc) :=
  explicit_name_bypasses_setter_check namedSetterMethod "Blah" "v"
    [FnArg.typed (Pat.identPat "v")] (by rfl) (by rfl) (by rfl) (by rfl)

/-- C10: a property method with more than one parameter beyond the
receiver is still classified as a setter and the generated member
forwards only the last declared parameter to the transport set
operation, silently ignoring the earlier parameters. -/
theorem multi_param_property_setter {V E : Type} (m : TraitItemMethod) (n v : String)
    (ps : List FnArg)
    (hprop : m.attrs.any ItemAttr.is_property = true)
    (hin : m.inputs = FnArg.receiver :: ps)
    (hlen : 2 ≤ ps.length)
    (hlast : ps.getLast? = some (FnArg.typed (Pat.identPat v)))
    (hname : resolveWireName m.ident m.attrs true (decide (m.inputs.length > 1)) = Except.ok n) :
    compileMethod m = Except.ok (ProxyMember.propertySet n v m.doc) ∧
    (∀ (tr : Transport V E) (env : String → V),
      runMember tr env (ProxyMember.propertySet n v m.doc) =
        ([TransportCall.setProp n (env v)], tr.try_set n (env v))) ∧
    (∀ (tr : Transport V E) (env env2 : String → V), env v = env2 v →
      runMember tr env (ProxyMember.propertySet n v m.doc) =
        runMember tr env2 (ProxyMember.propertySet n v m.doc)) := by
  have hps : ps ≠ [] := by
    intro h
    rw [h] at hlast
    cases hlast
  have h2 : m.inputs.length > 1 := by
    rw [hin]
    cases ps with
    | nil => exact absurd rfl hps
    | cons a l => simp
  have hlast2 : m.inputs.getLast? = some (FnArg.typed (Pat.identPat v)) := by
    rw [hin]
    cases ps with
    | nil => exact absurd rfl hps
    | cons a l => rw [List.getLast?_cons_cons]; exact hlast
  refine ⟨?_, fun tr env => rfl, fun tr env env2 h => ?_⟩
  · unfold compileMethod
    simp only [hprop, hname]
    unfold gen_proxy_property
    rw [if_pos h2, hlast2]
    simp [arg_ident]
  · simp only [runMember, h]

/-- C10 witness: a property setter with two parameters beyond the
receiver compiles to a set member forwarding only the second one. -/
theorem multi_param_property_setter_witness :
    compileMethod exMethodTwoParamSetter =
      Except.ok (ProxyMember.propertySet "Thing" "second" exMethodTwoParamSetter.doc) ∧
    (∀ (tr : Transport Nat String) (env : String → Nat),
      runMember tr env (ProxyMember.propertySet "Thing" "second" exMethodTwoParamSetter.doc) =
        ([TransportCall.setProp "Thing" (env "second")], tr.try_set "Thing" (env "second"))) ∧
    (∀ (tr : Transport Nat String) (env env2 : String → Nat),
      env "second" = env2 "second" →
      runMember tr env (ProxyMember.propertySet "Thing" "second" exMethodTwoParamSetter.doc) =
        runMember tr env2 (ProxyMember.propertySet "Thing" "second" exMethodTwoParamSetter.doc)) :=
  multi_param_property_setter exMethodTwoParamSetter "Thing" "second"
    [FnArg.typed (Pat.identPat "first"), FnArg.typed (Pat.identPat "second")]
    (by rfl) (by rfl) (by decide) (by rfl) (by rfl)

/-- C5: for every declaration containing no method named introspect, the
generated proxy exposes an introspection member that delegates to the
transport introspection operation; when a method named introspect is
declared, no extra member is synthesized. -/
theorem introspect_synthesis {V E : Type} (attr : List NestedMeta) (input : ItemTrait)
    (o : ProxyOutput) (hok : dbus_proxy attr input = Except.ok o) :
    (hasIntrospectMethod input.items = false →
      ProxyMember.introspectMember ∈ o.members ∧
      ∀ (tr : Transport V E) (env : String → V),
        runMember tr env ProxyMember.introspectMember =
          ([TransportCall.introspectCall], tr.run_introspect)) ∧
    (hasIntrospectMethod input.items = true →
      ProxyMember.introspectMember ∉ o.members) := by
  obtain ⟨dirs, mems, hdirs, hmems, hpn, hn, hdp, hds, hmem⟩ := dbus_proxy_ok_inv hok
  constructor
  · intro hi
    rw [hmem, hi]
    refine ⟨by simp, fun tr env => rfl⟩
  · intro hi
    have hni := compileItems_not_introspect hmems
    rw [hmem, hi]
    simpa using hni

/-- C5 witness: the example declaration without an introspect method
gets the synthesized introspection member. -/
theorem introspect_synthesis_witness :
    (hasIntrospectMethod exTraitSomeIface.items = false →
      ProxyMember.introspectMember ∈ exOutputSomeIface.members ∧
      ∀ (tr : Transport Nat String) (env : String → Nat),
        runMember tr env ProxyMember.introspectMember =
          ([TransportCall.introspectCall], tr.run_introspect)) ∧
    (hasIntrospectMethod exTraitSomeIface.items = true →
      ProxyMember.introspectMember ∉ exOutputSomeIface.members) :=
  introspect_synthesis [] exTraitSomeIface exOutputSomeIface (by rfl)
